import Mathlib

/-!
Shallow embedding of the CPU emulation core in `src/main.rs` (an 8-bit CPU
with registers `register_a`, `register_x`, a `status` flag byte, a 16-bit
`program_counter`, and a memory array declared as `[u8; 0xFFFF]`).

Machine bytes and words are modelled as `Nat` with explicit `% 256` /
`% 65536` where the Rust code wraps.  A Rust panic (out-of-bounds index,
`todo!()`) is modelled as `none` in an `Option` result.  Note that the
source declares the memory as `[u8; 0xFFFF]`, i.e. 65535 entries (valid
indices 0x0000–0xFFFE), not the 65536 entries of a full 16-bit address
space; this is reflected faithfully by `MEM_SIZE`.
-/

/-- Length of the memory array: the source declares `memory: [u8; 0xFFFF]`,
which is an array of 0xFFFF = 65535 bytes. -/
def MEM_SIZE : Nat := 0xFFFF

/-- The CPU state of `struct CPU`.  `memory` is the contents function of the
fixed-length array; only indices `< MEM_SIZE` are valid, which the access
functions below check exactly as Rust's bounds checks do. -/
structure CPU where
  register_a : Nat
  register_x : Nat
  status : Nat
  program_counter : Nat
  memory : Nat → Nat

/-- `CPU::new()`: all registers zero, memory zero-initialised. -/
def CPU.new : CPU :=
  { register_a := 0, register_x := 0, status := 0, program_counter := 0,
    memory := fun _ => 0 }

/-- `fn mem_read(&self, addr: u16) -> u8` — `self.memory[addr as usize]`.
Rust's array indexing panics when `addr as usize >= 0xFFFF` (the array
length), modelled by `none`. -/
def CPU.mem_read (c : CPU) (addr : Nat) : Option Nat :=
  if addr < MEM_SIZE then some (c.memory addr) else none

/-- `fn mem_write(&mut self, addr: u16, data: u8)` —
`self.memory[addr as usize] = data`, with the same bounds check. -/
def CPU.mem_write (c : CPU) (addr data : Nat) : Option CPU :=
  if addr < MEM_SIZE then
    some { c with memory := fun a => if a = addr then data else c.memory a }
  else none

/-- `fn mem_read_u16`: reads the low byte at `addr`, then the high byte at
`addr + 1`, and returns `(hi << 8) | lo`.  The `% 65536` models the u16
addition `addr + 1`; at `addr = 0xFFFF` the low-byte read already fails, so
the modelling of the overflow itself is unreachable. -/
def CPU.mem_read_u16 (c : CPU) (addr : Nat) : Option Nat :=
  match c.mem_read addr with
  | none => none
  | some lo =>
    match c.mem_read ((addr + 1) % 65536) with
    | none => none
    | some hi => some ((hi <<< 8) ||| lo)

/-- `fn mem_write_u16`: `hi = (data >> 8) as u8`, `lo = (data & 0xff) as u8`,
write `lo` at `addr`, then `hi` at `addr + 1`. -/
def CPU.mem_write_u16 (c : CPU) (addr data : Nat) : Option CPU :=
  let hi := (data >>> 8) % 256
  let lo := data &&& 0xff
  match c.mem_write addr lo with
  | none => none
  | some c1 => c1.mem_write ((addr + 1) % 65536) hi

/-- `fn update_zero_and_negative_flags(&mut self, result: u8)` as a function
from the old status byte and the result byte to the new status byte:
set/clear bit 1 according to `result == 0`, then set/clear bit 7 according
to `result & 0b1000_0000 != 0`. -/
def update_zero_and_negative_flags (status result : Nat) : Nat :=
  let s1 := if result = 0 then status ||| 0x02 else status &&& 0xFD
  if result &&& 0x80 ≠ 0 then s1 ||| 0x80 else s1 &&& 0x7F

/-- `fn lda(&mut self, param: u8)`. -/
def CPU.lda (c : CPU) (param : Nat) : CPU :=
  let c1 := { c with register_a := param }
  { c1 with status := update_zero_and_negative_flags c1.status c1.register_a }

/-- `fn tax(&mut self)`. -/
def CPU.tax (c : CPU) : CPU :=
  let c1 := { c with register_x := c.register_a }
  { c1 with status := update_zero_and_negative_flags c1.status c1.register_x }

/-- `fn inx(&mut self)`: `self.register_x.wrapping_add(1)`. -/
def CPU.inx (c : CPU) : CPU :=
  let c1 := { c with register_x := (c.register_x + 1) % 256 }
  { c1 with status := update_zero_and_negative_flags c1.status c1.register_x }

/-- `pub fn reset(&mut self)`: zero the registers and the status byte, then
set `program_counter` from the 16-bit value at 0xFFFC. -/
def CPU.reset (c : CPU) : Option CPU :=
  match c.mem_read_u16 0xFFFC with
  | none => none
  | some pc =>
    some { c with register_a := 0, register_x := 0, status := 0,
                  program_counter := pc }

/-- `pub fn load(&mut self, program: Vec<u8>)`:
`self.memory[0x8000 .. 0x8000 + program.len()].copy_from_slice(&program)`
(the slice panics when `0x8000 + program.len()` exceeds the array length
0xFFFF), then `mem_write_u16(0xFFFC, 0x8000)`. -/
def CPU.load (c : CPU) (program : List Nat) : Option CPU :=
  if 0x8000 + program.length ≤ MEM_SIZE then
    let mem1 : Nat → Nat := fun a =>
      if 0x8000 ≤ a ∧ a < 0x8000 + program.length then
        program.getD (a - 0x8000) 0
      else c.memory a
    let c1 := { c with memory := mem1 }
    c1.mem_write_u16 0xFFFC 0x8000
  else none

/-- Outcome of `pub fn run(&mut self)`: either the loop returned at opcode
0x00 with final state `c`, or the Rust code crashed (out-of-bounds memory
access, or the `todo!()` arm for an unimplemented opcode). -/
inductive RunResult where
  | halted (c : CPU)
  | crashed
deriving Inhabited

/-- Outcome of one iteration of the `loop` body in `run`: continue with the
new state, return (opcode 0x00), or crash. -/
inductive StepRes where
  | next (c : CPU)
  | halted (c : CPU)
  | crashed

/-- One iteration of the `loop` body of `pub fn run(&mut self)`: read the
opcode at `program_counter`, increment the counter (a u16, hence
`% 65536`), and dispatch: 0xA9 = LDA immediate (consumes one operand
byte), 0x00 = return, 0xAA = TAX, 0xE8 = INX, any other opcode hits
`todo!()`. -/
def stepCPU (c : CPU) : StepRes :=
  match c.mem_read c.program_counter with
  | none => StepRes.crashed
  | some opscode =>
    let c1 := { c with program_counter := (c.program_counter + 1) % 65536 }
    if opscode = 0xA9 then
      match c1.mem_read c1.program_counter with
      | none => StepRes.crashed
      | some param =>
        let c2 := { c1 with
          program_counter := (c1.program_counter + 1) % 65536 }
        StepRes.next (c2.lda param)
    else if opscode = 0x00 then StepRes.halted c1
    else if opscode = 0xAA then StepRes.next c1.tax
    else if opscode = 0xE8 then StepRes.next c1.inx
    else StepRes.crashed

/-- The fetch-decode-execute loop of `pub fn run(&mut self)`, iterating
`stepCPU` with explicit fuel: `none` means the fuel ran out before the loop
returned or crashed. -/
def runFuel : Nat → CPU → Option RunResult
  | 0, _ => none
  | fuel + 1, c =>
    match stepCPU c with
    | StepRes.next c1 => runFuel fuel c1
    | StepRes.halted c1 => some (RunResult.halted c1)
    | StepRes.crashed => some RunResult.crashed

/-- `pub fn load_and_run(&mut self, program: Vec<u8>)`: load, reset, run
(with fuel for the loop). -/
def load_and_run (fuel : Nat) (c : CPU) (program : List Nat) :
    Option RunResult :=
  match c.load program with
  | none => some RunResult.crashed
  | some c1 =>
    match c1.reset with
    | none => some RunResult.crashed
    | some c2 => runFuel fuel c2

/-- The memory contents after `load`: the reset-vector write (low byte 0x00
at 0xFFFC, high byte 0x80 at 0xFFFD) layered over the program copy layered
over the old contents. -/
def loadedMem (c : CPU) (p : List Nat) : Nat → Nat := fun a =>
  if a = 0xFFFD then 0x80
  else if a = 0xFFFC then 0
  else if 0x8000 ≤ a ∧ a < 0x8000 + p.length then p.getD (a - 0x8000) 0
  else c.memory a

/-- The CPU state right after `CPU.new.load [0x00]`, used as the concrete
input of the C4 witness. -/
def cpuLoadedNop : CPU := { CPU.new with memory := loadedMem CPU.new [0x00] }

/-- A fresh CPU with `register_x = 0xFF`, the concrete input of the C5
witness. -/
def cpuXFF : CPU := { CPU.new with register_x := 0xFF }

/-- A CPU whose reset vector holds 0x1234, the concrete input of the C7
witness. -/
def cpuVec : CPU :=
  { CPU.new with memory := fun a =>
      if a = 0xFFFC then 0x34 else if a = 0xFFFD then 0x12 else 0 }

/-- `cpuVec` after one `reset`: registers cleared, `program_counter` loaded
from the vector. -/
def cpuVecReset : CPU := { cpuVec with program_counter := 0x1234 }

/-- The CPU state right after `CPU.new.load [0xA9, 0x05]`, the concrete
input of the C8 witness. -/
def cpuLoadedLda : CPU :=
  { CPU.new with memory := loadedMem CPU.new [0xA9, 0x05] }

/-- A fresh CPU after fetching the halt opcode at address 0: only the
program counter moved, to 1.  Concrete output of the C10 witness. -/
def cpuHalt1 : CPU := { CPU.new with program_counter := 1 }

/-- Final state of `load_and_run` on the one-byte program `[0x00]` from a
fresh CPU: memory as loaded, registers cleared by reset, and the program
counter one past the halt opcode at the 0x8000 origin.  Concrete output of
the C9 witness. -/
def cpuNopFinal : CPU :=
  { CPU.new with memory := loadedMem CPU.new [0x00], program_counter := 0x8001 }

lemma load_eq (c : CPU) (p : List Nat) (h : 0x8000 + p.length ≤ MEM_SIZE) :
    c.load p = some { c with memory := loadedMem c p } := by
  unfold CPU.load
  rw [if_pos h]
  rfl

lemma load_fail (c : CPU) (p : List Nat)
    (h : ¬ 0x8000 + p.length ≤ MEM_SIZE) : c.load p = none := by
  unfold CPU.load
  rw [if_neg h]

lemma reset_eq (c : CPU) :
    c.reset = some
      { c with
        register_a := 0
        register_x := 0
        status := 0
        program_counter := (c.memory 0xFFFD <<< 8) ||| c.memory 0xFFFC } := rfl

/-! ### Bitwise helper lemmas for the status byte -/

lemma lor_land_distrib (a b c : Nat) :
    (a ||| b) &&& c = (a &&& c) ||| (b &&& c) := by
  apply Nat.eq_of_testBit_eq
  intro i
  simp [Nat.testBit_land, Nat.testBit_lor, Bool.and_or_distrib_right]

lemma and128_ne_zero_iff (r : Nat) : r &&& 0x80 ≠ 0 ↔ r.testBit 7 = true := by
  have h : r &&& 0x80 = (r.testBit 7).toNat * 0x80 := by
    have := Nat.and_two_pow r 7
    norm_num at this
    exact this
  rw [h]
  cases hb : r.testBit 7 <;> simp

lemma flags_zero_bit (s r : Nat) :
    (update_zero_and_negative_flags s r).testBit 1 = decide (r = 0) := by
  have h2 : Nat.testBit 2 1 = true := by decide
  have h253 : Nat.testBit 0xFD 1 = false := by decide
  have h128 : Nat.testBit 0x80 1 = false := by decide
  have h127 : Nat.testBit 0x7F 1 = true := by decide
  unfold update_zero_and_negative_flags
  by_cases hr : r = 0 <;> by_cases h8 : r &&& 0x80 ≠ 0 <;>
    simp [hr, h8, Nat.testBit_lor, Nat.testBit_land, h2, h253, h128, h127]

lemma flags_negative_bit (s r : Nat) :
    (update_zero_and_negative_flags s r).testBit 7 = r.testBit 7 := by
  have h2 : Nat.testBit 2 7 = false := by decide
  have h253 : Nat.testBit 0xFD 7 = true := by decide
  have h128 : Nat.testBit 0x80 7 = true := by decide
  have h127 : Nat.testBit 0x7F 7 = false := by decide
  unfold update_zero_and_negative_flags
  by_cases h8 : r &&& 0x80 ≠ 0
  · have hb7 := (and128_ne_zero_iff r).mp h8
    by_cases hr : r = 0 <;>
      simp [hr, h8, Nat.testBit_lor, Nat.testBit_land, h2, h253, h128, h127, hb7]
  · have hb : r.testBit 7 = false := by
      rcases hbc : r.testBit 7 with _ | _
      · rfl
      · exact absurd ((and128_ne_zero_iff r).mpr hbc) h8
    by_cases hr : r = 0 <;>
      simp [hr, h8, Nat.testBit_lor, Nat.testBit_land, h2, h253, h128, h127, hb]

lemma flags_other_bits (s r : Nat) :
    update_zero_and_negative_flags s r &&& 0x7D = s &&& 0x7D := by
  have c1 : (2 : Nat) &&& 0x7D = 0 := by decide
  have c2 : (0xFD : Nat) &&& 0x7D = 0x7D := by decide
  have c3 : (0x80 : Nat) &&& 0x7D = 0 := by decide
  have c4 : (0x7F : Nat) &&& 0x7D = 0x7D := by decide
  unfold update_zero_and_negative_flags
  by_cases hr : r = 0 <;> by_cases h8 : r &&& 0x80 ≠ 0 <;>
    simp [hr, h8, lor_land_distrib, Nat.land_assoc, c1, c2, c3, c4]

/-! ### Claims -/

/-- Claim C1: the spec says memory is a 65536-entry array covering addresses
0x0000–0xFFFF with total reads; the code declares `memory: [u8; 0xFFFF]`,
an array of only 65535 entries, so a read at address 0xFFFF is out of
bounds and panics, while 0xFFFE is the last readable address (0 at
power-on). -/
theorem C1_read_at_FFFF_out_of_bounds :
    MEM_SIZE = 65535 ∧ CPU.new.mem_read 0xFFFF = none ∧
    CPU.new.mem_read 0xFFFE = some 0 := by
  refine ⟨rfl, ?_, ?_⟩ <;> decide

/-- Claim C2: the spec says `read16` is total over all u16 addresses, with
the high-byte access at `addr = 0xFFFF` wrapping to 0x0000; in the code the
low-byte read at 0xFFFF is already out of bounds (the array has 65535
entries) and at 0xFFFE the high-byte read at 0xFFFF is out of bounds, so
`mem_read_u16` panics at the top two addresses instead of wrapping;
0xFFFD is the last address where it succeeds. -/
theorem C2_read16_at_top_crashes :
    CPU.new.mem_read_u16 0xFFFD = some 0 ∧
    CPU.new.mem_read_u16 0xFFFE = none ∧
    CPU.new.mem_read_u16 0xFFFF = none := by
  refine ⟨?_, ?_, ?_⟩ <;> decide

/-- Claim C3: for every prior status value and every result byte,
`update_zero_and_negative_flags` sets the Zero flag (status bit 1) iff the
result is 0, sets the Negative flag (status bit 7) iff bit 7 of the result
is 1, and leaves all other status-register bits (mask 0x7D, bits 0 and 2–6
of the 8-bit status) unchanged. -/
theorem C3_flag_update_rule (status result : Nat) :
    ((update_zero_and_negative_flags status result).testBit 1 = true
        ↔ result = 0) ∧
    (update_zero_and_negative_flags status result).testBit 7
        = result.testBit 7 ∧
    update_zero_and_negative_flags status result &&& 0x7D
        = status &&& 0x7D := by
  refine ⟨?_, flags_negative_bit status result, flags_other_bits status result⟩
  rw [flags_zero_bit status result]
  simp

/-- Claim C4: whenever `load` accepts a program, a subsequent `reset` sets
`program_counter` to the fixed load origin 0x8000, because `load` writes the
origin to the reset-vector bytes 0xFFFC–0xFFFD and `reset` reads it back. -/
theorem C4_load_then_reset_pc (c : CPU) (p : List Nat) (c1 : CPU)
    (h : c.load p = some c1) :
    ∃ c2, c1.reset = some c2 ∧ c2.program_counter = 0x8000 := by
  by_cases hlen : 0x8000 + p.length ≤ MEM_SIZE
  · rw [load_eq c p hlen] at h
    injection h with h
    subst h
    refine ⟨_, reset_eq _, ?_⟩
    show (loadedMem c p 0xFFFD <<< 8) ||| loadedMem c p 0xFFFC = 0x8000
    simp [loadedMem]
  · rw [load_fail c p hlen] at h
    exact absurd h (by simp)


/-- Witness for C4 at the concrete program `[0x00]` loaded into a fresh
CPU. -/
theorem C4_load_then_reset_pc_witness :
    ∃ c2, cpuLoadedNop.reset = some c2 ∧ c2.program_counter = 0x8000 :=
  C4_load_then_reset_pc CPU.new [0x00] cpuLoadedNop
    (load_eq CPU.new [0x00] (by decide))

/-- Claim C5: `inx` increments `register_x` modulo 256 with unsigned
wraparound, and from `register_x = 0xFF` two increments give 0 then 1, with
the Zero flag (status bit 1) set after the first and cleared after the
second. -/
theorem C5_inx_wraparound (c : CPU) :
    c.inx.register_x = (c.register_x + 1) % 256 ∧
    (c.register_x = 0xFF →
      c.inx.register_x = 0 ∧ c.inx.inx.register_x = 1 ∧
      c.inx.status.testBit 1 = true ∧
      c.inx.inx.status.testBit 1 = false) := by
  refine ⟨rfl, fun hx => ?_⟩
  have h1 : c.inx.register_x = 0 := by
    show (c.register_x + 1) % 256 = 0
    rw [hx]
  have h2 : c.inx.inx.register_x = 1 := by
    show (c.inx.register_x + 1) % 256 = 1
    rw [h1]
  have hz1 : c.inx.status.testBit 1 = decide (c.inx.register_x = 0) :=
    flags_zero_bit c.status c.inx.register_x
  have hz2 : c.inx.inx.status.testBit 1 = decide (c.inx.inx.register_x = 0) :=
    flags_zero_bit c.inx.status c.inx.inx.register_x
  rw [h1] at hz1
  rw [h2] at hz2
  simp at hz1 hz2
  exact ⟨h1, h2, hz1, hz2⟩


/-- Witness for C5 at the concrete state `register_x = 0xFF`. -/
theorem C5_inx_wraparound_witness :
    cpuXFF.inx.register_x = 0 ∧ cpuXFF.inx.inx.register_x = 1 ∧
    cpuXFF.inx.status.testBit 1 = true ∧
    cpuXFF.inx.inx.status.testBit 1 = false :=
  (C5_inx_wraparound cpuXFF).2 rfl

/-- Claim C6: `tax` copies the accumulator into `register_x` exactly, leaves
the accumulator unchanged, and applies the zero/negative flag rule to the
new `register_x` value. -/
theorem C6_tax_copies_accumulator (c : CPU) :
    c.tax.register_x = c.register_a ∧
    c.tax.register_a = c.register_a ∧
    c.tax.status = update_zero_and_negative_flags c.status c.tax.register_x :=
  ⟨rfl, rfl, rfl⟩

/-- Claim C7: `reset` is idempotent — a second `reset` with no intervening
`load` reproduces exactly the state the first one produced. -/
theorem C7_reset_idempotent (c c' : CPU) (h : c.reset = some c') :
    c'.reset = some c' := by
  rw [reset_eq] at h
  injection h with h
  subst h
  rfl



/-- Witness for C7: resetting `cpuVec` once yields `cpuVecReset`, and
resetting again leaves it fixed. -/
theorem C7_reset_idempotent_witness :
    cpuVec.reset = some cpuVecReset ∧ cpuVecReset.reset = some cpuVecReset :=
  ⟨rfl, C7_reset_idempotent cpuVec cpuVecReset rfl⟩

/-! ### Lemmas about the fetch-decode-execute loop -/

lemma mem_read_some_lt (c : CPU) (a v : Nat) (h : c.mem_read a = some v) :
    a < MEM_SIZE := by
  unfold CPU.mem_read at h
  by_cases ha : a < MEM_SIZE
  · exact ha
  · rw [if_neg ha] at h
    exact absurd h (by simp)

lemma step_halted (c c' : CPU) (h : stepCPU c = StepRes.halted c') :
    c.mem_read c.program_counter = some 0x00 ∧
    c' = { c with program_counter := c.program_counter + 1 } := by
  unfold stepCPU at h
  cases hread : c.mem_read c.program_counter with
  | none => rw [hread] at h; simp at h
  | some op =>
    rw [hread] at h
    simp only at h
    have hlt := mem_read_some_lt c _ _ hread
    have hmod : (c.program_counter + 1) % 65536 = c.program_counter + 1 := by
      apply Nat.mod_eq_of_lt
      unfold MEM_SIZE at hlt
      omega
    by_cases h9 : op = 0xA9
    · rw [if_pos h9] at h
      cases hr2 : CPU.mem_read
          { c with program_counter := (c.program_counter + 1) % 65536 }
          ((c.program_counter + 1) % 65536) with
      | none => rw [hr2] at h; simp at h
      | some param => rw [hr2] at h; simp at h
    · rw [if_neg h9] at h
      by_cases h0 : op = 0x00
      · rw [if_pos h0] at h
        injection h with h
        subst h0
        refine ⟨rfl, ?_⟩
        rw [← h, hmod]
      · rw [if_neg h0] at h
        by_cases hA : op = 0xAA
        · rw [if_pos hA] at h; simp at h
        · rw [if_neg hA] at h
          by_cases hE : op = 0xE8
          · rw [if_pos hE] at h; simp at h
          · rw [if_neg hE] at h; simp at h

lemma runFuel_mono : ∀ n m : Nat, ∀ c : CPU, ∀ r : RunResult,
    runFuel n c = some r → n ≤ m → runFuel m c = some r := by
  intro n
  induction n with
  | zero =>
    intro m c r h _
    simp [runFuel] at h
  | succ k ih =>
    intro m c r h hle
    obtain ⟨m1, rfl⟩ : ∃ m1, m = m1 + 1 := ⟨m - 1, by omega⟩
    rw [runFuel] at h ⊢
    cases hstep : stepCPU c with
    | next c1 =>
      rw [hstep] at h
      exact ih m1 c1 r h (by omega)
    | halted c1 => rw [hstep] at h; exact h
    | crashed => rw [hstep] at h; exact h

/-- Claim C9: execution is deterministic — two runs of `load_and_run` from
the same initial state on the same program bytes that both come to an end
(any fuel amounts) produce the same outcome, final CPU state included. -/
theorem C9_load_and_run_deterministic (n m : Nat) (c : CPU) (p : List Nat)
    (r1 r2 : RunResult) (h1 : load_and_run n c p = some r1)
    (h2 : load_and_run m c p = some r2) : r1 = r2 := by
  cases hload : c.load p with
  | none =>
    simp only [load_and_run, hload] at h1 h2
    rw [← Option.some.inj h1, ← Option.some.inj h2]
  | some c1 =>
    cases hreset : c1.reset with
    | none =>
      simp only [load_and_run, hload, hreset] at h1 h2
      rw [← Option.some.inj h1, ← Option.some.inj h2]
    | some c2 =>
      simp only [load_and_run, hload, hreset] at h1 h2
      rcases Nat.le_total n m with hle | hle
      · exact Option.some.inj ((runFuel_mono n m c2 r1 h1 hle).symm.trans h2)
      · exact (Option.some.inj
          ((runFuel_mono m n c2 r2 h2 hle).symm.trans h1)).symm

/-- Witness for C9: running the program `[0x00]` from a fresh CPU with fuel
1 and fuel 2 gives the same final state. -/
theorem C9_load_and_run_deterministic_witness :
    RunResult.halted cpuNopFinal = RunResult.halted cpuNopFinal :=
  C9_load_and_run_deterministic 1 2 CPU.new [0x00]
    (RunResult.halted cpuNopFinal) (RunResult.halted cpuNopFinal) rfl rfl

/-- Claim C10: when `run` terminates via the halt opcode 0x00, the final
state equals the state at the halt fetch with only the program counter
advanced by one — the fetch increment happened, the halt consumed no
operand bytes, and nothing else changed after it; in particular the final
`program_counter` is the address of the halt opcode plus 1. -/
theorem C10_halt_pc (n : Nat) (c c' : CPU)
    (h : runFuel n c = some (RunResult.halted c')) :
    ∃ d : CPU, d.mem_read d.program_counter = some 0x00 ∧
      c' = { d with program_counter := d.program_counter + 1 } := by
  induction n generalizing c with
  | zero => simp [runFuel] at h
  | succ k ih =>
    rw [runFuel] at h
    cases hstep : stepCPU c with
    | next c1 =>
      rw [hstep] at h
      exact ih c1 h
    | halted c1 =>
      rw [hstep] at h
      simp at h
      obtain ⟨hop, hc⟩ := step_halted c c1 hstep
      refine ⟨c, hop, ?_⟩
      rw [← h]
      exact hc
    | crashed => rw [hstep] at h; simp at h

/-- Witness for C10: a fresh CPU halts on the 0x00 byte at address 0, and
the final program counter is 1 = 0 + 1. -/
theorem C10_halt_pc_witness :
    ∃ d : CPU, d.mem_read d.program_counter = some 0x00 ∧
      cpuHalt1 = { d with program_counter := d.program_counter + 1 } :=
  C10_halt_pc 1 CPU.new cpuHalt1 rfl

/-- Counterexample for claim C8 as stated: the program of 0x7FFD bytes of
value 7 is accepted by `load` (its length stays within the array), yet the
copy is not verbatim — the byte at index 0x7FFC would land at address
0xFFFC, and `load`'s subsequent reset-vector write overwrites it with 0x00,
so the loaded memory holds 0 there instead of the program byte 7. -/
theorem C8_verbatim_counterexample :
    (CPU.new.load (List.replicate 0x7FFD 7)).map (fun c => c.memory 0xFFFC)
      = some 0 ∧
    (List.replicate 0x7FFD 7).getD 0x7FFC 0 = 7 ∧
    0x8000 + 0x7FFC = 0xFFFC := by
  refine ⟨?_, ?_, by norm_num⟩
  · rw [load_eq CPU.new _ (by rw [List.length_replicate]; norm_num [MEM_SIZE])]
    show some (loadedMem CPU.new (List.replicate 0x7FFD 7) 0xFFFC) = some 0
    unfold loadedMem
    rw [if_neg (by norm_num : ¬(0xFFFC : Nat) = 0xFFFD),
        if_pos (rfl : (0xFFFC : Nat) = 0xFFFC)]
  · have hb : (0x7FFC : Nat) < (List.replicate 0x7FFD (7 : Nat)).length := by
      rw [List.length_replicate]
      omega
    rw [List.getD_eq_getElem _ _ hb]
    exact List.getElem_replicate _ _

/-- Claim C8 (amended): `load` succeeds exactly when the program length is
at most 0xFFFF − 0x8000 = 0x7FFF (the array has 0xFFFF entries, so the
slice `0x8000 .. 0x8000 + len` must end by 0xFFFF), and panics on larger
programs; on success the program bytes are copied verbatim to
0x8000 + i except at addresses 0xFFFC and 0xFFFD, which the reset-vector
write performed by `load` afterwards sets to 0x00 and 0x80. -/
theorem C8_load_size_boundary (c : CPU) (p : List Nat) :
    ((c.load p).isSome = true ↔ p.length ≤ 0xFFFF - 0x8000) ∧
    ∀ c1, c.load p = some c1 →
      (∀ i, i < p.length → 0x8000 + i ≠ 0xFFFC → 0x8000 + i ≠ 0xFFFD →
        c1.memory (0x8000 + i) = p.getD i 0) ∧
      c1.memory 0xFFFC = 0x00 ∧ c1.memory 0xFFFD = 0x80 := by
  by_cases hlen : 0x8000 + p.length ≤ MEM_SIZE
  · constructor
    · rw [load_eq c p hlen]
      unfold MEM_SIZE at hlen
      simp only [Option.isSome_some, true_iff]
      omega
    · intro c1 hc1
      rw [load_eq c p hlen] at hc1
      injection hc1 with hc1
      subst hc1
      refine ⟨?_, rfl, rfl⟩
      intro i hi hne1 hne2
      show loadedMem c p (0x8000 + i) = p.getD i 0
      unfold loadedMem
      have hcond : 0x8000 ≤ 0x8000 + i ∧ 0x8000 + i < 0x8000 + p.length :=
        ⟨by omega, by omega⟩
      rw [if_neg hne2, if_neg hne1, if_pos hcond,
        show 0x8000 + i - 0x8000 = i by omega]
  · constructor
    · rw [load_fail c p hlen]
      unfold MEM_SIZE at hlen
      constructor
      · intro hcontra
        simp at hcontra
      · intro hle
        exact absurd (show 0x8000 + p.length ≤ 0xFFFF by omega) hlen
    · intro c1 hc1
      rw [load_fail c p hlen] at hc1
      exact absurd hc1 (by simp)

/-- Witness for C8 at the concrete program `[0xA9, 0x05]` loaded into a
fresh CPU: both bytes are copied verbatim and the reset-vector bytes are
written. -/
theorem C8_load_size_boundary_witness :
    cpuLoadedLda.memory (0x8000 + 0) = [0xA9, 0x05].getD 0 0 ∧
    cpuLoadedLda.memory (0x8000 + 1) = [0xA9, 0x05].getD 1 0 ∧
    cpuLoadedLda.memory 0xFFFC = 0x00 ∧ cpuLoadedLda.memory 0xFFFD = 0x80 := by
  obtain ⟨hiff, hcopy⟩ := C8_load_size_boundary CPU.new [0xA9, 0x05]
  obtain ⟨hbytes, hfc, hfd⟩ :=
    hcopy cpuLoadedLda (load_eq CPU.new [0xA9, 0x05] (by decide))
  exact ⟨hbytes 0 (by decide) (by decide) (by decide),
         hbytes 1 (by decide) (by decide) (by decide), hfc, hfd⟩
